import Mathlib

/-!
Shallow embedding of the Mahjong turn engine from `src/app/mahjong.tsx`.

Tiles, players and the game state mirror the TypeScript data model
(`Tile`, `Player`, and the React state hooks of `MahjongScreen`).
The UI-only optional field `isSelected` of `Tile` is omitted: no game
logic reads it.  Numeric tile values have TypeScript type
`1 | 2 | ... | 9`; they are embedded as `Fin 9`, with `n : Fin 9`
standing for the value `n.val + 1`.  Wind and dragon values are string
enumerations in TypeScript; they are embedded as inductive types
together with their string forms, and every place the code manipulates
the values as strings (id construction, `${...}` keys, `localeCompare`)
goes through those string forms.

Randomness (`Math.random()`): every call site uses
`Math.floor(Math.random() * len)`, i.e. an arbitrary in-range index.
It is modelled by a `Nat` parameter `r`, accessed as `r % len`, and the
shuffle `tiles.sort(() => Math.random() - 0.5)` is modelled as an
arbitrary permutation of the deterministically built deck.

The `setTimeout`-scheduled follow-up draw inside `discardTile` is
modelled by returning, besides the new state, the player index whose
draw got scheduled (`none` when nothing was scheduled).
-/

set_option maxRecDepth 100000

inductive TileSuit
  | bamboo | character | dot | wind | dragon | flower
deriving DecidableEq, Repr, Fintype

inductive WindVal
  | east | south | west | north
deriving DecidableEq, Repr, Fintype

inductive DragonVal
  | red | green | white
deriving DecidableEq, Repr, Fintype

inductive TileVal
  | num (n : Fin 9)
  | wind (w : WindVal)
  | dragon (d : DragonVal)
deriving DecidableEq, Repr, Fintype

structure Tile where
  id : String
  suit : TileSuit
  value : Option TileVal
deriving DecidableEq, Repr

def suitName : TileSuit → String
  | .bamboo => "bamboo"
  | .character => "character"
  | .dot => "dot"
  | .wind => "wind"
  | .dragon => "dragon"
  | .flower => "flower"

def windName : WindVal → String
  | .east => "east"
  | .south => "south"
  | .west => "west"
  | .north => "north"

def dragonName : DragonVal → String
  | .red => "red"
  | .green => "green"
  | .white => "white"

/-- The string form of a tile value, as JavaScript template interpolation
and `String(...)` would render it (`undefined` for a missing value). -/
def valStr : Option TileVal → String
  | some (.num n) => toString (n.val + 1)
  | some (.wind w) => windName w
  | some (.dragon d) => dragonName d
  | none => "undefined"

def numberedSuits : List TileSuit := [.bamboo, .character, .dot]

def windVals : List WindVal := [.east, .south, .west, .north]

def dragonVals : List DragonVal := [.red, .green, .white]

/-- The deterministic part of `createTileDeck`: the 136-tile enumeration
(bamboo/character/dot 1–9 × 4 copies, then winds × 4, then dragons × 4)
with the running `idCounter` building each id.  The trailing
`tiles.sort(() => Math.random() - 0.5)` shuffle is modelled downstream
as an arbitrary permutation of this list. -/
def createTileDeckBase : List Tile :=
  let acc1 : List Tile × Nat :=
    numberedSuits.foldl (fun acc suit =>
      (List.finRange 9).foldl (fun acc v =>
        (List.range 4).foldl (fun (acc : List Tile × Nat) _ =>
          (acc.1 ++ [{ id := suitName suit ++ "-" ++ toString (v.val + 1) ++ "-" ++ toString acc.2,
                       suit := suit, value := some (TileVal.num v) }],
           acc.2 + 1)) acc) acc) ([], 0)
  let acc2 : List Tile × Nat :=
    windVals.foldl (fun acc w =>
      (List.range 4).foldl (fun (acc : List Tile × Nat) _ =>
        (acc.1 ++ [{ id := "wind-" ++ windName w ++ "-" ++ toString acc.2,
                     suit := .wind, value := some (TileVal.wind w) }],
         acc.2 + 1)) acc) acc1
  let acc3 : List Tile × Nat :=
    dragonVals.foldl (fun acc d =>
      (List.range 4).foldl (fun (acc : List Tile × Nat) _ =>
        (acc.1 ++ [{ id := "dragon-" ++ dragonName d ++ "-" ++ toString acc.2,
                     suit := .dragon, value := some (TileVal.dragon d) }],
         acc.2 + 1)) acc) acc2
  acc3.1

def suitOrder : TileSuit → Nat
  | .bamboo => 0
  | .character => 1
  | .dot => 2
  | .wind => 3
  | .dragon => 4
  | .flower => 5

/-- Lexicographic strict comparison of character lists by code point. -/
def charListLt : List Char → List Char → Bool
  | _, [] => false
  | [], _ :: _ => true
  | a :: as, b :: bs =>
      if a.toNat < b.toNat then true
      else if b.toNat < a.toNat then false
      else charListLt as bs

/-- Lexicographic strict comparison of strings by code point. -/
def strLtB (s t : String) : Bool := charListLt s.data t.data

/-- `String.prototype.localeCompare`, sign-faithfully: negative, zero or
positive according to lexicographic comparison. -/
def strCmpInt (s t : String) : Int :=
  if strLtB s t then -1 else if strLtB t s then 1 else 0

/-- `compareTiles` from the source: primary key suit order, secondary key
numeric difference when both values are numbers, otherwise
`localeCompare` of the values' string forms. -/
def compareTiles (a b : Tile) : Int :=
  if suitOrder a.suit ≠ suitOrder b.suit then
    (suitOrder a.suit : Int) - (suitOrder b.suit : Int)
  else
    match a.value, b.value with
    | some (.num x), some (.num y) => ((x.val : Int) + 1) - ((y.val : Int) + 1)
    | _, _ => strCmpInt (valStr a.value) (valStr b.value)

/-- The Boolean "a sorts no later than b" relation induced by the
`compareTiles` comparator. -/
def tleb (a b : Tile) : Bool := decide (compareTiles a b ≤ 0)

/-- `hand.sort((a, b) => compareTiles(a, b))`, as a stable sort by the
comparator. -/
def sortHand (l : List Tile) : List Tile := l.mergeSort tleb

/-- The grouping key `${tile.suit}-${tile.value}` used by `checkWin` and
`findStrategicDiscard`. -/
def tileKey (t : Tile) : String := suitName t.suit ++ "-" ++ valStr t.value

/-- One `tileCounts.set(key, (tileCounts.get(key) || 0) + 1)` step on an
association-list rendering of the `Map`. -/
def bump : List (String × Nat) → String → List (String × Nat)
  | [], k => [(k, 1)]
  | (k', c) :: rest, k =>
      if k' = k then (k', c + 1) :: rest else (k', c) :: bump rest k

/-- The `tileCounts` map of `checkWin`: number of occurrences of each
grouping key, in first-occurrence order. -/
def tileCounts (hand : List Tile) : List (String × Nat) :=
  (hand.map tileKey).foldl bump []

/-- `checkWin` from the source: requires exactly 14 tiles, counts
(suit, value) groups, and wins iff at least 3 groups of size ≥ 3 or at
least 5 groups of size ≥ 2. -/
def checkWin (hand : List Tile) : Bool :=
  if hand.length ≠ 14 then false
  else
    let counts := tileCounts hand
    let pairs := (counts.filter (fun p => 2 ≤ p.2)).length
    let triplets := (counts.filter (fun p => 3 ≤ p.2)).length
    decide (3 ≤ triplets) || decide (5 ≤ pairs)

/-- The neighbour test inside `findIsolatedTiles.hasNeighbor`: same suit,
and numeric distance ≤ 2 when both values are numbers, otherwise strict
value equality. -/
def isNeighbor (tile other : Tile) : Bool :=
  if tile.suit ≠ other.suit then false
  else
    match tile.value, other.value with
    | some (.num x), some (.num y) =>
        decide ((((x.val : Int) + 1) - ((y.val : Int) + 1)).natAbs ≤ 2)
    | _, _ => decide (tile.value = other.value)

/-- `hasNeighbor` for the tile at position `i`: some other index holds a
neighbouring tile. -/
def hasNeighbor (hand : List Tile) (i : Nat) (tile : Tile) : Bool :=
  hand.enum.any fun p => if p.1 = i then false else isNeighbor tile p.2

/-- `findIsolatedTiles` from the source: the tiles (in hand order) with
no neighbour at another index. -/
def findIsolatedTiles (hand : List Tile) : List Tile :=
  ((hand.enum.filter fun p => ! hasNeighbor hand p.1 p.2).map Prod.snd)

/-- `findStrategicDiscard`: the first isolated tile, else a random tile
(random index modelled by `r`). -/
def findStrategicDiscard (r : Nat) (hand : List Tile) : Option Tile :=
  match findIsolatedTiles hand with
  | t :: _ => some t
  | [] => hand[r % hand.length]?

/-- `selectTileToDiscard`: difficulty is carried as the runtime string it
is in the source (the cast there does not validate), with the switch
falling through to `hand[0]` on anything besides the three known
tiers. -/
def selectTileToDiscard (r : Nat) (hand : List Tile) (difficulty : String) : Option Tile :=
  if hand.length = 0 then none
  else if difficulty = "easy" then
    hand[r % hand.length]?
  else if difficulty = "medium" then
    let isolatedTiles := findIsolatedTiles hand
    if 0 < isolatedTiles.length then
      isolatedTiles[r % isolatedTiles.length]?
    else
      hand[r % hand.length]?
  else if difficulty = "hard" then
    match findStrategicDiscard r hand with
    | some t => some t
    | none => hand[r % hand.length]?
  else
    hand[0]?

/-- `const difficulty = (params.difficulty as Difficulty) || 'medium'`:
only a missing or empty (falsy) parameter falls back to `"medium"`. -/
def difficultyParam (p : Option String) : String :=
  match p with
  | none => "medium"
  | some s => if s = "" then "medium" else s

structure Player where
  id : String
  name : String
  hand : List Tile
  discarded : List Tile
  isAI : Bool
deriving DecidableEq, Repr

inductive GamePhase
  | setup | playing | finished
deriving DecidableEq, Repr

/-- The React state of `MahjongScreen` that the turn engine mutates. -/
structure GameState where
  gameState : GamePhase
  players : List Player
  currentPlayerIndex : Nat
  drawPile : List Tile
  selectedTile : Option String
  lastDrawnTile : Option Tile
  winner : Option String
deriving DecidableEq, Repr

/-- In-place update of the player object at an index (the JS code
mutates `newPlayers[playerIndex]`). -/
def updateAt (i : Nat) (f : Player → Player) : List Player → List Player
  | [] => []
  | p :: ps =>
      match i with
      | 0 => f p :: ps
      | n + 1 => p :: updateAt n f ps

/-- `drawTile` from the source: on an empty pile, finish the game and
change nothing else; otherwise move the front tile into the player's
hand, re-sort it, record it as last drawn, and finish with a winner if
the 14-tile hand passes `checkWin`. -/
def drawTile (playerIndex : Nat) (st : GameState) : GameState :=
  match st.drawPile with
  | [] => { st with gameState := .finished }
  | drawnTile :: rest =>
      let ps := updateAt playerIndex
        (fun p => { p with hand := sortHand (p.hand ++ [drawnTile]) }) st.players
      let winnerName : Option String :=
        match ps[playerIndex]? with
        | some p => if checkWin p.hand then some p.name else none
        | none => none
      { st with
        players := ps,
        drawPile := rest,
        lastDrawnTile := some drawnTile,
        winner := match winnerName with | some n => some n | none => st.winner,
        gameState := match winnerName with | some _ => .finished | none => st.gameState }

/-- `Array.prototype.findIndex`, with `none` for the -1 miss case. -/
def findIdxO (p : Tile → Bool) : List Tile → Option Nat
  | [] => none
  | t :: ts => if p t then some 0 else (findIdxO p ts).map (· + 1)

/-- `discardTile` from the source.  The result pairs the new state with
the player index whose follow-up draw was scheduled via `setTimeout`
(`none` when the identifier missed and nothing happened). -/
def discardTile (playerIndex : Nat) (tileId : String) (st : GameState) :
    GameState × Option Nat :=
  match st.players[playerIndex]? with
  | none => (st, none)
  | some player =>
      match findIdxO (fun t => t.id = tileId) player.hand with
      | none => (st, none)
      | some tileIndex =>
          match player.hand[tileIndex]? with
          | none => (st, none)
          | some discardedTile =>
              let ps := updateAt playerIndex
                (fun p => { p with
                  hand := p.hand.eraseIdx tileIndex,
                  discarded := p.discarded ++ [discardedTile] }) st.players
              let nextPlayerIndex := (playerIndex + 1) % ps.length
              ({ st with
                  players := ps,
                  selectedTile := none,
                  lastDrawnTile := none,
                  currentPlayerIndex := nextPlayerIndex },
               some nextPlayerIndex)

/-- `initializeGame` from the source, applied to an already shuffled
deck: deal four 13-tile sorted hands from the front, keep the rest as
the draw pile, and reset phase, turn and winner. -/
def initializeGame (deck : List Tile) (st : GameState) : GameState :=
  let newPlayers : List Player := [
    { id := "player", name := "You",
      hand := sortHand (deck.take 13), discarded := [], isAI := false },
    { id := "ai1", name := "AI Bot 1",
      hand := sortHand ((deck.drop 13).take 13), discarded := [], isAI := true },
    { id := "ai2", name := "AI Bot 2",
      hand := sortHand ((deck.drop 26).take 13), discarded := [], isAI := true },
    { id := "ai3", name := "AI Bot 3",
      hand := sortHand ((deck.drop 39).take 13), discarded := [], isAI := true }]
  { st with
    players := newPlayers,
    drawPile := deck.drop 52,
    gameState := .playing,
    currentPlayerIndex := 0,
    winner := none }

/-- Hand of the player at an index (empty when the index is out of
range). -/
def handOf (st : GameState) (i : Nat) : List Tile :=
  ((st.players[i]?).map Player.hand).getD []

/-- Discard pile of the player at an index. -/
def discOf (st : GameState) (i : Nat) : List Tile :=
  ((st.players[i]?).map Player.discarded).getD []

/-! ### Specification-side definitions

These follow the wording of the specification (§4.5, §4.8) rather than
the code, for comparison with the code-derived definitions above. -/

/-- Lookup in the association-list rendering of the `tileCounts` map
(0 when absent), used to reason about `bump`/`tileCounts`. -/
def getc (m : List (String × Nat)) (k : String) : Nat :=
  match m.find? (fun p => decide (p.1 = k)) with
  | some p => p.2
  | none => 0

/-- The grouping key as an abstract (suit, value) pair, per the spec
wording "groups tiles by identical (suit, value) key". -/
def mkKey (s : TileSuit) (v : Option TileVal) : String :=
  suitName s ++ "-" ++ valStr v

/-- Spec-side: the size of the (suit, value) group of `k` in a hand. -/
def groupCount (hand : List Tile) (k : TileSuit × Option TileVal) : Nat :=
  hand.countP (fun t => decide ((t.suit, t.value) = k))

/-- Spec-side: the number of (suit, value) groups of size at least `n`. -/
def groupsAtLeast (hand : List Tile) (n : Nat) : Nat :=
  (Finset.univ.filter (fun k : TileSuit × Option TileVal => n ≤ groupCount hand k)).card

/-- Spec-side *pairs*: number of groups with count ≥ 2. -/
def specPairs (hand : List Tile) : Nat := groupsAtLeast hand 2

/-- Spec-side *triplets*: number of groups with count ≥ 3. -/
def specTriplets (hand : List Tile) : Nat := groupsAtLeast hand 3

/-- A tile as the deck builds them: numbered suits carry numeric values,
winds wind values, dragons dragon values (and no flower tiles). -/
def wellFormedTile (t : Tile) : Bool :=
  match t.suit, t.value with
  | .bamboo, some (.num _) => true
  | .character, some (.num _) => true
  | .dot, some (.num _) => true
  | .wind, some (.wind _) => true
  | .dragon, some (.dragon _) => true
  | _, _ => false

def isNumberedSuit (s : TileSuit) : Bool :=
  match s with
  | .bamboo => true
  | .character => true
  | .dot => true
  | _ => false

/-- The numeric value (1–9) of a tile, when it has one. -/
def tileNumVal (t : Tile) : Option Nat :=
  match t.value with
  | some (.num x) => some (x.val + 1)
  | _ => none

/-- Spec-side neighbour relation (§4.8): same suit, and numeric value
distance ≤ 2 for numbered suits, exactly the same value for the
others. -/
def neighborSpec (t u : Tile) : Prop :=
  t.suit = u.suit ∧
  (if isNumberedSuit t.suit then
    ∃ x y : Nat, tileNumVal t = some x ∧ tileNumVal u = some y ∧
      ((x : Int) - (y : Int)).natAbs ≤ 2
  else t.value = u.value)

/-- A bamboo tile with the given id and numeric value, for concrete
test hands. -/
def bTile (s : String) (n : Fin 9) : Tile :=
  { id := s, suit := .bamboo, value := some (.num n) }

/-- A concrete 14-tile hand: three full groups of four plus a pair. -/
def sampleWinHand : List Tile :=
  [bTile "a0" 0, bTile "a1" 0, bTile "a2" 0, bTile "a3" 0,
   bTile "b0" 1, bTile "b1" 1, bTile "b2" 1, bTile "b3" 1,
   bTile "c0" 2, bTile "c1" 2, bTile "c2" 2, bTile "c3" 2,
   bTile "d0" 3, bTile "d1" 3]

/-- A concrete 15-tile hand made of five triplets. -/
def sampleLongHand : List Tile :=
  [bTile "a0" 0, bTile "a1" 0, bTile "a2" 0,
   bTile "b0" 1, bTile "b1" 1, bTile "b2" 1,
   bTile "c0" 2, bTile "c1" 2, bTile "c2" 2,
   bTile "d0" 3, bTile "d1" 3, bTile "d2" 3,
   bTile "e0" 4, bTile "e1" 4, bTile "e2" 4]

/-- A blank pre-initialization game state. -/
def emptyGameState : GameState :=
  { gameState := .setup, players := [], currentPlayerIndex := 0, drawPile := [],
    selectedTile := none, lastDrawnTile := none, winner := none }

/-- A concrete well-formed hand whose only isolated tile sits at
index 2. -/
def sampleIsoHand : List Tile :=
  [{ id := "u", suit := .bamboo, value := some (.num 0) },
   { id := "v", suit := .bamboo, value := some (.num 1) },
   { id := "w", suit := .dot, value := some (.num 8) }]

/-- A small concrete game state with four players. -/
def sampleState : GameState :=
  { gameState := .playing,
    players := [
      { id := "player", name := "You", hand := [bTile "a0" 0, bTile "b0" 4],
        discarded := [], isAI := false },
      { id := "ai1", name := "AI Bot 1", hand := [bTile "c0" 8],
        discarded := [], isAI := true },
      { id := "ai2", name := "AI Bot 2", hand := [], discarded := [], isAI := true },
      { id := "ai3", name := "AI Bot 3", hand := [], discarded := [], isAI := true }],
    currentPlayerIndex := 0,
    drawPile := [bTile "d0" 2, bTile "e0" 6],
    selectedTile := none, lastDrawnTile := none, winner := none }

/-! ### Order facts for the character-list comparison -/

theorem charListLt_asymm :
    ∀ (l1 l2 : List Char), charListLt l1 l2 = true → charListLt l2 l1 = false := by
  intro l1
  induction l1 with
  | nil => intro l2 _; cases l2 <;> rfl
  | cons a as ih =>
      intro l2 h
      cases l2 with
      | nil => simp [charListLt] at h
      | cons b bs =>
          simp only [charListLt] at h ⊢
          split_ifs at h ⊢ with h1 h2 h3 h4 <;> try omega
          all_goals first
            | rfl
            | exact ih bs h
            | simp_all

theorem charListLt_le_trans :
    ∀ (l1 l2 l3 : List Char), charListLt l2 l1 = false → charListLt l3 l2 = false →
      charListLt l3 l1 = false := by
  intro l1
  induction l1 with
  | nil =>
      intro l2 l3 _ _
      cases l3 <;> rfl
  | cons a as ih =>
      intro l2 l3 h1 h2
      cases l2 with
      | nil => simp [charListLt] at h1
      | cons b bs =>
          cases l3 with
          | nil => simp [charListLt] at h2
          | cons c cs =>
              simp only [charListLt] at h1 h2 ⊢
              split_ifs at h1 h2 ⊢ <;>
                first
                  | rfl
                  | omega
                  | exact ih bs cs h1 h2
                  | simp_all

theorem strLtB_asymm (s t : String) (h : strLtB s t = true) : strLtB t s = false :=
  charListLt_asymm _ _ h

theorem strLtB_le_trans (s t u : String) (h1 : strLtB t s = false)
    (h2 : strLtB u t = false) : strLtB u s = false :=
  charListLt_le_trans _ _ _ h1 h2

/-! ### Basic lemmas about the `tileCounts` map -/

theorem getc_nil (k : String) : getc [] k = 0 := rfl

theorem getc_cons (a1 : String) (c : Nat) (m : List (String × Nat)) (k : String) :
    getc ((a1, c) :: m) k = if a1 = k then c else getc m k := by
  by_cases h : a1 = k <;> simp [getc, List.find?_cons, h]

theorem getc_bump (m : List (String × Nat)) (k k' : String) :
    getc (bump m k) k' = getc m k' + (if k' = k then 1 else 0) := by
  induction m with
  | nil =>
      rw [show bump [] k = [(k, 1)] from rfl, getc_cons, getc_nil]
      by_cases h : k = k'
      · rw [if_pos h, if_pos h.symm]
      · rw [if_neg h, if_neg (fun hh => h hh.symm)]
  | cons a m ih =>
      obtain ⟨a1, c⟩ := a
      by_cases h : a1 = k
      · subst h
        rw [show bump ((a1, c) :: m) a1 = (a1, c + 1) :: m from by simp [bump],
          getc_cons, getc_cons]
        by_cases h' : a1 = k'
        · rw [if_pos h', if_pos h', if_pos h'.symm]
        · rw [if_neg h', if_neg h', if_neg (fun hh => h' hh.symm)]
          omega
      · rw [show bump ((a1, c) :: m) k = (a1, c) :: bump m k from by simp [bump, h],
          getc_cons, getc_cons]
        by_cases h' : a1 = k'
        · rw [if_pos h', if_pos h', if_neg (fun hh => h (h'.trans hh))]
          omega
        · rw [if_neg h', if_neg h', ih]

theorem mem_keys_bump (m : List (String × Nat)) (k k' : String) :
    k' ∈ (bump m k).map Prod.fst ↔ k' ∈ m.map Prod.fst ∨ k' = k := by
  induction m with
  | nil => simp [bump]
  | cons a m ih =>
      obtain ⟨a1, c⟩ := a
      by_cases h : a1 = k
      · subst h
        by_cases h' : k' = a1 <;> simp [bump, h']
      · simp only [bump, if_neg h, List.map_cons, List.mem_cons, ih]
        tauto

theorem nodup_keys_bump (m : List (String × Nat)) (k : String)
    (h : (m.map Prod.fst).Nodup) : ((bump m k).map Prod.fst).Nodup := by
  induction m with
  | nil => simp [bump]
  | cons a m ih =>
      obtain ⟨a1, c⟩ := a
      simp only [List.map_cons, List.nodup_cons] at h
      by_cases hk : a1 = k
      · subst hk
        simpa [bump, List.nodup_cons] using h
      · simp only [bump, if_neg hk, List.map_cons, List.nodup_cons]
        refine ⟨?_, ih h.2⟩
        rw [mem_keys_bump]
        rintro (hm | hm)
        · exact h.1 hm
        · exact hk hm

theorem getc_foldl (ks : List String) :
    ∀ (m : List (String × Nat)) (k : String),
      getc (ks.foldl bump m) k = getc m k + ks.countP (fun x => decide (x = k)) := by
  induction ks with
  | nil => simp
  | cons a ks ih =>
      intro m k
      simp only [List.foldl_cons, ih, getc_bump, List.countP_cons]
      by_cases h : k = a
      · subst h
        simp
        omega
      · rw [if_neg h, if_neg (fun hh => h (Eq.symm (of_decide_eq_true hh)))]
        omega

theorem mem_keys_foldl (ks : List String) :
    ∀ (m : List (String × Nat)) (k : String),
      k ∈ (ks.foldl bump m).map Prod.fst ↔ k ∈ m.map Prod.fst ∨ k ∈ ks := by
  induction ks with
  | nil => simp
  | cons a ks ih =>
      intro m k
      simp only [List.foldl_cons, ih, mem_keys_bump, List.mem_cons]
      tauto

theorem nodup_keys_foldl (ks : List String) :
    ∀ (m : List (String × Nat)), (m.map Prod.fst).Nodup →
      ((ks.foldl bump m).map Prod.fst).Nodup := by
  induction ks with
  | nil => exact fun _ h => h
  | cons a ks ih =>
      intro m h
      exact ih _ (nodup_keys_bump m a h)

theorem getc_tileCounts (hand : List Tile) (k : String) :
    getc (tileCounts hand) k = hand.countP (fun t => decide (tileKey t = k)) := by
  unfold tileCounts
  rw [getc_foldl, getc_nil, List.countP_map, Nat.zero_add]
  rfl

theorem mem_keys_tileCounts (hand : List Tile) (k : String) :
    k ∈ (tileCounts hand).map Prod.fst ↔ k ∈ hand.map tileKey := by
  unfold tileCounts
  rw [mem_keys_foldl]
  simp

theorem nodup_keys_tileCounts (hand : List Tile) :
    ((tileCounts hand).map Prod.fst).Nodup := by
  unfold tileCounts
  exact nodup_keys_foldl _ _ (by simp)

theorem getc_of_mem :
    ∀ (m : List (String × Nat)), (m.map Prod.fst).Nodup →
      ∀ p ∈ m, getc m p.1 = p.2 := by
  intro m
  induction m with
  | nil => intro _ p hp; cases hp
  | cons a m ih =>
      intro h p hp
      obtain ⟨a1, c⟩ := a
      simp only [List.map_cons, List.nodup_cons] at h
      rcases List.mem_cons.mp hp with rfl | hp'
      · simp [getc_cons]
      · rw [getc_cons, if_neg, ih h.2 p hp']
        intro hap
        exact h.1 (hap ▸ List.mem_map_of_mem Prod.fst hp')

/-! ### The win-condition counting bridge -/

theorem mkKey_inj : ∀ (s1 s2 : TileSuit) (v1 v2 : Option TileVal),
    mkKey s1 v1 = mkKey s2 v2 ↔ (s1 = s2 ∧ v1 = v2) := by decide

theorem tileKey_eq_mkKey (t : Tile) : tileKey t = mkKey t.suit t.value := rfl

theorem countP_tileKey_mkKey (hand : List Tile) (s : TileSuit) (v : Option TileVal) :
    hand.countP (fun t => decide (tileKey t = mkKey s v)) = groupCount hand (s, v) := by
  unfold groupCount
  refine List.countP_congr ?_
  intro t _
  simp only [decide_eq_true_eq, tileKey_eq_mkKey, mkKey_inj, Prod.mk.injEq]

theorem groups_card (hand : List Tile) (n : Nat) (hn : 1 ≤ n) :
    ((tileCounts hand).filter (fun p => decide (n ≤ p.2))).length = groupsAtLeast hand n := by
  have hA : (tileCounts hand).filter (fun p => decide (n ≤ p.2))
      = (tileCounts hand).filter
          (fun p => decide (n ≤ hand.countP (fun t => decide (tileKey t = p.1)))) := by
    apply List.filter_congr
    intro p hp
    have h1 : getc (tileCounts hand) p.1 = p.2 :=
      getc_of_mem _ (nodup_keys_tileCounts hand) p hp
    rw [getc_tileCounts] at h1
    rw [h1]
  rw [hA]
  have hB : ((tileCounts hand).filter
        (fun p => decide (n ≤ hand.countP (fun t => decide (tileKey t = p.1))))).length
      = (((tileCounts hand).map Prod.fst).filter
          (fun k => decide (n ≤ hand.countP (fun t => decide (tileKey t = k))))).length := by
    rw [List.filter_map, List.length_map]
    rfl
  rw [hB]
  have hnd : (((tileCounts hand).map Prod.fst).filter
      (fun k => decide (n ≤ hand.countP (fun t => decide (tileKey t = k))))).Nodup :=
    (nodup_keys_tileCounts hand).filter _
  rw [← List.toFinset_card_of_nodup hnd]
  unfold groupsAtLeast
  refine (Finset.card_bij (fun pk _ => mkKey pk.1 pk.2) ?_ ?_ ?_).symm
  · intro pk hpk
    rw [Finset.mem_filter] at hpk
    have hcnt : n ≤ groupCount hand (pk.1, pk.2) := by
      rw [Prod.mk.eta]
      exact hpk.2
    have hpos : 0 < hand.countP (fun t => decide ((t.suit, t.value) = (pk.1, pk.2))) :=
      lt_of_lt_of_le hn hcnt
    obtain ⟨t, ht, hpt⟩ := List.countP_pos_iff.mp hpos
    have hpt' : t.suit = pk.1 ∧ t.value = pk.2 := by
      have := of_decide_eq_true hpt
      exact Prod.mk.injEq .. ▸ this
    rw [List.mem_toFinset, List.mem_filter]
    constructor
    · rw [mem_keys_tileCounts]
      refine List.mem_map.mpr ⟨t, ht, ?_⟩
      rw [tileKey_eq_mkKey, hpt'.1, hpt'.2]
    · rw [decide_eq_true_eq, countP_tileKey_mkKey]
      exact hcnt
  · intro pk1 h1 pk2 h2 heq
    rw [mkKey_inj] at heq
    exact Prod.ext heq.1 heq.2
  · intro k hk
    rw [List.mem_toFinset, List.mem_filter, mem_keys_tileCounts] at hk
    obtain ⟨hk1, hk2⟩ := hk
    obtain ⟨t, ht, rfl⟩ := List.mem_map.mp hk1
    refine ⟨(t.suit, t.value), ?_, (tileKey_eq_mkKey t)⟩
    rw [Finset.mem_filter]
    refine ⟨Finset.mem_univ _, ?_⟩
    rw [← countP_tileKey_mkKey]
    have := of_decide_eq_true hk2
    rw [tileKey_eq_mkKey] at this
    exact this

/-! ### Claim C1 and C10: the win predicate -/

/-- C1: for every 14-tile hand, `checkWin` is true iff the number of
(suit, value) groups of size at least 3 is at least 3, or the number of
groups of size at least 2 is at least 5.  The predicate is a function of
the group sizes alone, so sequential runs are never credited. -/
theorem checkWin_iff_groups (hand : List Tile) (h : hand.length = 14) :
    checkWin hand = true ↔ 3 ≤ specTriplets hand ∨ 5 ≤ specPairs hand := by
  unfold checkWin
  rw [if_neg (by simp [h])]
  simp only [Bool.or_eq_true, decide_eq_true_eq]
  rw [groups_card hand 3 (by omega), groups_card hand 2 (by omega)]
  exact Iff.rfl

/-- Witness for C1 at a concrete 14-tile hand. -/
theorem checkWin_iff_groups_witness :
    sampleWinHand.length = 14 ∧
      (checkWin sampleWinHand = true ↔
        3 ≤ specTriplets sampleWinHand ∨ 5 ≤ specPairs sampleWinHand) :=
  ⟨by decide, checkWin_iff_groups sampleWinHand (by decide)⟩

/-- C10: a hand whose size is not exactly 14 never satisfies `checkWin`,
regardless of its contents. -/
theorem checkWin_eq_false_of_length_ne (hand : List Tile) (h : hand.length ≠ 14) :
    checkWin hand = false := by
  simp [checkWin, h]

/-- Witness for C10 at a 15-tile hand containing five triplets. -/
theorem checkWin_eq_false_of_length_ne_witness :
    sampleLongHand.length ≠ 14 ∧ checkWin sampleLongHand = false :=
  ⟨by decide, checkWin_eq_false_of_length_ne sampleLongHand (by decide)⟩

/-! ### Claim C2: the deck -/

theorem deckBase_length : createTileDeckBase.length = 136 := by decide

theorem deckBase_ids_nodup : (createTileDeckBase.map Tile.id).Nodup := by decide

theorem deckBase_nodup : createTileDeckBase.Nodup :=
  deckBase_ids_nodup.of_map

theorem deckBase_numbered_counts : ∀ s ∈ numberedSuits, ∀ n : Fin 9,
    (createTileDeckBase.filter
      (fun t => t.suit = s ∧ t.value = some (TileVal.num n))).length = 4 := by decide

theorem deckBase_wind_counts : ∀ w : WindVal,
    (createTileDeckBase.filter
      (fun t => t.suit = TileSuit.wind ∧ t.value = some (TileVal.wind w))).length = 4 := by
  decide

theorem deckBase_dragon_counts : ∀ d : DragonVal,
    (createTileDeckBase.filter
      (fun t => t.suit = TileSuit.dragon ∧ t.value = some (TileVal.dragon d))).length = 4 := by
  decide

theorem deckBase_no_flower : ∀ t ∈ createTileDeckBase, t.suit ≠ TileSuit.flower := by decide

/-- C2: any freshly built deck (any permutation of the deterministic
enumeration, since the shuffle only reorders) has exactly 136 tiles,
each numbered/wind/dragon (suit, value) combination exactly 4 times,
pairwise-distinct identifiers, and no flower tiles. -/
theorem createTileDeck_facts (deck : List Tile) (hperm : deck.Perm createTileDeckBase) :
    deck.length = 136 ∧
    (∀ s ∈ numberedSuits, ∀ n : Fin 9,
      (deck.filter (fun t => t.suit = s ∧ t.value = some (TileVal.num n))).length = 4) ∧
    (∀ w : WindVal,
      (deck.filter (fun t => t.suit = TileSuit.wind ∧ t.value = some (TileVal.wind w))).length = 4) ∧
    (∀ d : DragonVal,
      (deck.filter (fun t => t.suit = TileSuit.dragon ∧ t.value = some (TileVal.dragon d))).length = 4) ∧
    (deck.map Tile.id).Nodup ∧
    (∀ t ∈ deck, t.suit ≠ TileSuit.flower) := by
  refine ⟨?_, ?_, ?_, ?_, ?_, ?_⟩
  · rw [hperm.length_eq, deckBase_length]
  · intro s hs n
    rw [(hperm.filter _).length_eq]
    exact deckBase_numbered_counts s hs n
  · intro w
    rw [(hperm.filter _).length_eq]
    exact deckBase_wind_counts w
  · intro d
    rw [(hperm.filter _).length_eq]
    exact deckBase_dragon_counts d
  · exact ((hperm.map Tile.id).nodup_iff).mpr deckBase_ids_nodup
  · intro t ht
    exact deckBase_no_flower t (hperm.mem_iff.mp ht)

/-- Witness for C2 at the identity shuffle. -/
theorem createTileDeck_facts_witness :
    createTileDeckBase.Perm createTileDeckBase ∧
    (createTileDeckBase.length = 136 ∧
    (∀ s ∈ numberedSuits, ∀ n : Fin 9,
      (createTileDeckBase.filter
        (fun t => t.suit = s ∧ t.value = some (TileVal.num n))).length = 4) ∧
    (∀ w : WindVal,
      (createTileDeckBase.filter
        (fun t => t.suit = TileSuit.wind ∧ t.value = some (TileVal.wind w))).length = 4) ∧
    (∀ d : DragonVal,
      (createTileDeckBase.filter
        (fun t => t.suit = TileSuit.dragon ∧ t.value = some (TileVal.dragon d))).length = 4) ∧
    (createTileDeckBase.map Tile.id).Nodup ∧
    (∀ t ∈ createTileDeckBase, t.suit ≠ TileSuit.flower)) :=
  ⟨List.Perm.refl _, createTileDeck_facts createTileDeckBase (List.Perm.refl _)⟩

/-! ### Order properties of the tile comparator -/

theorem strCmp_le_iff (s t : String) :
    strCmpInt s t ≤ 0 ↔ strLtB t s = false := by
  unfold strCmpInt
  by_cases h1 : strLtB s t = true
  · rw [if_pos h1]
    simp [strLtB_asymm _ _ h1]
  · rw [if_neg h1]
    by_cases h2 : strLtB t s = true
    · rw [if_pos h2]
      simp [h2]
    · rw [if_neg h2]
      simp [Bool.not_eq_true] at h2
      simp [h2]

theorem numToStr_le : ∀ x y : Fin 9,
    ((((x.val : Int) + 1) - ((y.val : Int) + 1) ≤ 0) ↔
      strLtB (toString (y.val + 1)) (toString (x.val + 1)) = false) := by decide

theorem cmp2_le_iff (a b : Tile) (hsuit : suitOrder a.suit = suitOrder b.suit) :
    compareTiles a b ≤ 0 ↔ strLtB (valStr b.value) (valStr a.value) = false := by
  unfold compareTiles
  rw [if_neg (by simp [hsuit])]
  rcases ha : a.value with - | tv1
  · rcases hb : b.value with - | tv2
    · exact strCmp_le_iff _ _
    · cases tv2 <;> exact strCmp_le_iff _ _
  · cases tv1 with
    | num x =>
        rcases hb : b.value with - | tv2
        · exact strCmp_le_iff _ _
        · cases tv2 with
          | num y => simpa [valStr] using numToStr_le x y
          | wind w => exact strCmp_le_iff _ _
          | dragon d => exact strCmp_le_iff _ _
    | wind w =>
        rcases hb : b.value with - | tv2
        · exact strCmp_le_iff _ _
        · cases tv2 <;> exact strCmp_le_iff _ _
    | dragon d =>
        rcases hb : b.value with - | tv2
        · exact strCmp_le_iff _ _
        · cases tv2 <;> exact strCmp_le_iff _ _

theorem tleb_iff (a b : Tile) :
    tleb a b = true ↔
      (suitOrder a.suit < suitOrder b.suit ∨
        (suitOrder a.suit = suitOrder b.suit ∧
          strLtB (valStr b.value) (valStr a.value) = false)) := by
  unfold tleb
  rw [decide_eq_true_eq]
  by_cases h : suitOrder a.suit = suitOrder b.suit
  · rw [cmp2_le_iff a b h]
    simp [h]
  · unfold compareTiles
    rw [if_pos h]
    simp only [h, false_and, or_false]
    omega

theorem tleb_total : ∀ a b : Tile, tleb a b || tleb b a := by
  intro a b
  rw [Bool.or_eq_true, tleb_iff, tleb_iff]
  rcases Nat.lt_trichotomy (suitOrder a.suit) (suitOrder b.suit) with h | h | h
  · exact Or.inl (Or.inl h)
  · by_cases hs : strLtB (valStr b.value) (valStr a.value) = false
    · exact Or.inl (Or.inr ⟨h, hs⟩)
    · simp only [Bool.not_eq_false] at hs
      exact Or.inr (Or.inr ⟨h.symm, strLtB_asymm _ _ hs⟩)
  · exact Or.inr (Or.inl h)

theorem tleb_trans : ∀ a b c : Tile, tleb a b → tleb b c → tleb a c := by
  intro a b c hab hbc
  rw [tleb_iff] at hab hbc ⊢
  rcases hab with h1 | ⟨h1, hs1⟩ <;> rcases hbc with h2 | ⟨h2, hs2⟩
  · exact Or.inl (Nat.lt_trans h1 h2)
  · exact Or.inl (h2 ▸ h1)
  · exact Or.inl (h1 ▸ h2)
  · exact Or.inr ⟨h1.trans h2, strLtB_le_trans _ _ _ hs1 hs2⟩

theorem sortHand_perm (l : List Tile) : (sortHand l).Perm l :=
  List.mergeSort_perm l tleb

theorem sortHand_sorted (l : List Tile) :
    (sortHand l).Pairwise (fun a b => tleb a b = true) :=
  List.sorted_mergeSort tleb_trans tleb_total l

/-! ### Claim C3: dealing -/

theorem deck_decomp (deck : List Tile) :
    deck = deck.take 13 ++ ((deck.drop 13).take 13 ++ ((deck.drop 26).take 13 ++
      ((deck.drop 39).take 13 ++ deck.drop 52))) := by
  have h4 : deck.drop 39 = (deck.drop 39).take 13 ++ deck.drop 52 := by
    have h := (List.take_append_drop 13 (deck.drop 39)).symm
    rwa [List.drop_drop, show (13 : Nat) + 39 = 52 from rfl] at h
  have h3 : deck.drop 26 = (deck.drop 26).take 13 ++ deck.drop 39 := by
    have h := (List.take_append_drop 13 (deck.drop 26)).symm
    rwa [List.drop_drop, show (13 : Nat) + 26 = 39 from rfl] at h
  have h2 : deck.drop 13 = (deck.drop 13).take 13 ++ deck.drop 26 := by
    have h := (List.take_append_drop 13 (deck.drop 13)).symm
    rwa [List.drop_drop, show (13 : Nat) + 13 = 26 from rfl] at h
  have h1 : deck = deck.take 13 ++ deck.drop 13 := (List.take_append_drop 13 deck).symm
  conv_lhs => rw [h1, h2, h3, h4]

theorem handOf_init_zero (deck : List Tile) (st : GameState) :
    handOf (initializeGame deck st) 0 = sortHand (deck.take 13) := rfl

theorem handOf_init_one (deck : List Tile) (st : GameState) :
    handOf (initializeGame deck st) 1 = sortHand ((deck.drop 13).take 13) := rfl

theorem handOf_init_two (deck : List Tile) (st : GameState) :
    handOf (initializeGame deck st) 2 = sortHand ((deck.drop 26).take 13) := rfl

theorem handOf_init_three (deck : List Tile) (st : GameState) :
    handOf (initializeGame deck st) 3 = sortHand ((deck.drop 39).take 13) := rfl

theorem drawPile_init (deck : List Tile) (st : GameState) :
    (initializeGame deck st).drawPile = deck.drop 52 := rfl

/-- C3: initializing from a (shuffled) 136-tile deck yields 4 players,
13-tile sorted hands dealt from the deck front in order, pairwise
disjoint hands, an 84-tile draw pile, the original deck reconstructed as
the union of hands and pile, phase playing, current player 0, and no
winner. -/
theorem initializeGame_facts (deck : List Tile) (st : GameState)
    (hperm : deck.Perm createTileDeckBase) :
    (initializeGame deck st).players.length = 4 ∧
    (∀ p ∈ (initializeGame deck st).players, p.hand.length = 13) ∧
    ((handOf (initializeGame deck st) 0).Perm (deck.take 13) ∧
      (handOf (initializeGame deck st) 1).Perm ((deck.drop 13).take 13) ∧
      (handOf (initializeGame deck st) 2).Perm ((deck.drop 26).take 13) ∧
      (handOf (initializeGame deck st) 3).Perm ((deck.drop 39).take 13)) ∧
    (∀ p ∈ (initializeGame deck st).players,
      p.hand.Pairwise (fun a b => tleb a b = true)) ∧
    (∀ i j, i < 4 → j < 4 → i ≠ j → ∀ t,
      t ∈ handOf (initializeGame deck st) i →
        t ∉ handOf (initializeGame deck st) j) ∧
    (initializeGame deck st).drawPile.length = 84 ∧
    (handOf (initializeGame deck st) 0 ++ handOf (initializeGame deck st) 1 ++
      handOf (initializeGame deck st) 2 ++ handOf (initializeGame deck st) 3 ++
      (initializeGame deck st).drawPile).Perm deck ∧
    (initializeGame deck st).gameState = GamePhase.playing ∧
    (initializeGame deck st).currentPlayerIndex = 0 ∧
    (initializeGame deck st).winner = none := by
  have hlen : deck.length = 136 := by rw [hperm.length_eq, deckBase_length]
  have hnd : deck.Nodup := (hperm.nodup_iff).mpr deckBase_nodup
  have hp0 : (handOf (initializeGame deck st) 0).Perm (deck.take 13) := by
    rw [handOf_init_zero]; exact sortHand_perm _
  have hp1 : (handOf (initializeGame deck st) 1).Perm ((deck.drop 13).take 13) := by
    rw [handOf_init_one]; exact sortHand_perm _
  have hp2 : (handOf (initializeGame deck st) 2).Perm ((deck.drop 26).take 13) := by
    rw [handOf_init_two]; exact sortHand_perm _
  have hp3 : (handOf (initializeGame deck st) 3).Perm ((deck.drop 39).take 13) := by
    rw [handOf_init_three]; exact sortHand_perm _
  refine ⟨rfl, ?_, ⟨hp0, hp1, hp2, hp3⟩, ?_, ?_, ?_, ?_, rfl, rfl, rfl⟩
  · intro p hp
    simp only [initializeGame, List.mem_cons, List.not_mem_nil, or_false] at hp
    rcases hp with rfl | rfl | rfl | rfl <;>
      simp only [sortHand, List.length_mergeSort, List.length_take, List.length_drop] <;>
      omega
  · intro p hp
    simp only [initializeGame, List.mem_cons, List.not_mem_nil, or_false] at hp
    rcases hp with rfl | rfl | rfl | rfl <;> exact sortHand_sorted _
  · -- pairwise disjointness of the four hands
    have hnd' : (deck.take 13 ++ ((deck.drop 13).take 13 ++ ((deck.drop 26).take 13 ++
        ((deck.drop 39).take 13 ++ deck.drop 52)))).Nodup := by
      rw [← deck_decomp deck]; exact hnd
    rw [List.nodup_append] at hnd'
    obtain ⟨-, hnd1, dj0⟩ := hnd'
    rw [List.nodup_append] at hnd1
    obtain ⟨-, hnd2, dj1⟩ := hnd1
    rw [List.nodup_append] at hnd2
    obtain ⟨-, -, dj2⟩ := hnd2
    rw [List.disjoint_append_right] at dj0
    obtain ⟨d01, dj0'⟩ := dj0
    rw [List.disjoint_append_right] at dj0'
    obtain ⟨d02, dj0''⟩ := dj0'
    rw [List.disjoint_append_right] at dj0''
    obtain ⟨d03, -⟩ := dj0''
    rw [List.disjoint_append_right] at dj1
    obtain ⟨d12, dj1'⟩ := dj1
    rw [List.disjoint_append_right] at dj1'
    obtain ⟨d13, -⟩ := dj1'
    rw [List.disjoint_append_right] at dj2
    obtain ⟨d23, -⟩ := dj2
    intro i j hi hj hij t hti htj
    interval_cases i <;> interval_cases j
    · exact absurd rfl hij
    · exact d01 (hp0.mem_iff.mp hti) (hp1.mem_iff.mp htj)
    · exact d02 (hp0.mem_iff.mp hti) (hp2.mem_iff.mp htj)
    · exact d03 (hp0.mem_iff.mp hti) (hp3.mem_iff.mp htj)
    · exact d01.symm (hp1.mem_iff.mp hti) (hp0.mem_iff.mp htj)
    · exact absurd rfl hij
    · exact d12 (hp1.mem_iff.mp hti) (hp2.mem_iff.mp htj)
    · exact d13 (hp1.mem_iff.mp hti) (hp3.mem_iff.mp htj)
    · exact d02.symm (hp2.mem_iff.mp hti) (hp0.mem_iff.mp htj)
    · exact d12.symm (hp2.mem_iff.mp hti) (hp1.mem_iff.mp htj)
    · exact absurd rfl hij
    · exact d23 (hp2.mem_iff.mp hti) (hp3.mem_iff.mp htj)
    · exact d03.symm (hp3.mem_iff.mp hti) (hp0.mem_iff.mp htj)
    · exact d13.symm (hp3.mem_iff.mp hti) (hp1.mem_iff.mp htj)
    · exact d23.symm (hp3.mem_iff.mp hti) (hp2.mem_iff.mp htj)
    · exact absurd rfl hij
  · rw [drawPile_init, List.length_drop, hlen]
  · rw [drawPile_init]
    have hall : (handOf (initializeGame deck st) 0 ++ handOf (initializeGame deck st) 1 ++
        handOf (initializeGame deck st) 2 ++ handOf (initializeGame deck st) 3 ++
        deck.drop 52).Perm
        (deck.take 13 ++ (deck.drop 13).take 13 ++ (deck.drop 26).take 13 ++
          (deck.drop 39).take 13 ++ deck.drop 52) :=
      List.Perm.append (List.Perm.append (List.Perm.append (List.Perm.append hp0 hp1)
        hp2) hp3) (List.Perm.refl _)
    refine hall.trans ?_
    rw [show deck.take 13 ++ (deck.drop 13).take 13 ++ (deck.drop 26).take 13 ++
        (deck.drop 39).take 13 ++ deck.drop 52
        = deck.take 13 ++ ((deck.drop 13).take 13 ++ ((deck.drop 26).take 13 ++
          ((deck.drop 39).take 13 ++ deck.drop 52))) from by
      simp [List.append_assoc]]
    rw [← deck_decomp deck]

/-- Witness for C3 at the identity shuffle and a blank state. -/
theorem initializeGame_facts_witness :
    createTileDeckBase.Perm createTileDeckBase ∧
    ((initializeGame createTileDeckBase emptyGameState).players.length = 4 ∧
    (∀ p ∈ (initializeGame createTileDeckBase emptyGameState).players,
      p.hand.length = 13) ∧
    ((handOf (initializeGame createTileDeckBase emptyGameState) 0).Perm
        (createTileDeckBase.take 13) ∧
      (handOf (initializeGame createTileDeckBase emptyGameState) 1).Perm
        ((createTileDeckBase.drop 13).take 13) ∧
      (handOf (initializeGame createTileDeckBase emptyGameState) 2).Perm
        ((createTileDeckBase.drop 26).take 13) ∧
      (handOf (initializeGame createTileDeckBase emptyGameState) 3).Perm
        ((createTileDeckBase.drop 39).take 13)) ∧
    (∀ p ∈ (initializeGame createTileDeckBase emptyGameState).players,
      p.hand.Pairwise (fun a b => tleb a b = true)) ∧
    (∀ i j, i < 4 → j < 4 → i ≠ j → ∀ t,
      t ∈ handOf (initializeGame createTileDeckBase emptyGameState) i →
        t ∉ handOf (initializeGame createTileDeckBase emptyGameState) j) ∧
    (initializeGame createTileDeckBase emptyGameState).drawPile.length = 84 ∧
    (handOf (initializeGame createTileDeckBase emptyGameState) 0 ++
      handOf (initializeGame createTileDeckBase emptyGameState) 1 ++
      handOf (initializeGame createTileDeckBase emptyGameState) 2 ++
      handOf (initializeGame createTileDeckBase emptyGameState) 3 ++
      (initializeGame createTileDeckBase emptyGameState).drawPile).Perm
        createTileDeckBase ∧
    (initializeGame createTileDeckBase emptyGameState).gameState = GamePhase.playing ∧
    (initializeGame createTileDeckBase emptyGameState).currentPlayerIndex = 0 ∧
    (initializeGame createTileDeckBase emptyGameState).winner = none) :=
  ⟨List.Perm.refl _,
    initializeGame_facts createTileDeckBase emptyGameState (List.Perm.refl _)⟩

/-! ### Claims C4 and C5: isolation and the hard policy -/

theorem isNeighbor_self (t : Tile) : isNeighbor t t = true := by
  unfold isNeighbor
  rw [if_neg (by simp)]
  rcases hv : t.value with - | tv
  · simp
  · cases tv with
    | num x => simp
    | wind w => simp
    | dragon d => simp

theorem hasNeighbor_iff (hand : List Tile) (i : Nat) (tile : Tile) :
    hasNeighbor hand i tile = true ↔
      ∃ j, ∃ hj : j < hand.length, j ≠ i ∧ isNeighbor tile hand[j] = true := by
  unfold hasNeighbor
  rw [List.any_eq_true]
  rw [List.exists_mem_enum]
  constructor
  · rintro ⟨j, hj, hcond⟩
    by_cases hji : j = i
    · rw [if_pos hji] at hcond
      cases hcond
    · rw [if_neg hji] at hcond
      exact ⟨j, hj, hji, hcond⟩
  · rintro ⟨j, hj, hji, hcond⟩
    refine ⟨j, hj, ?_⟩
    rw [if_neg hji]
    exact hcond

theorem mem_findIsolatedTiles (hand : List Tile) (i : Nat) (hi : i < hand.length) :
    hand[i] ∈ findIsolatedTiles hand ↔ hasNeighbor hand i hand[i] = false := by
  unfold findIsolatedTiles
  constructor
  · intro hmem
    obtain ⟨p, hp, hsnd⟩ := List.mem_map.mp hmem
    obtain ⟨hpe, hpf⟩ := List.mem_filter.mp hp
    obtain ⟨k, hk, hpk⟩ := (List.exists_mem_enum (p := fun q => q = p)).mp ⟨p, hpe, rfl⟩
    subst hpk
    simp only [Bool.not_eq_true'] at hpf
    have hkt : hand[k] = hand[i] := hsnd
    by_cases hki : k = i
    · subst hki
      exact hpf
    · exfalso
      have : hasNeighbor hand k hand[k] = true := by
        rw [hasNeighbor_iff]
        exact ⟨i, hi, fun h => hki h.symm, by rw [hkt]; exact isNeighbor_self _⟩
      rw [this] at hpf
      cases hpf
  · intro hno
    refine List.mem_map.mpr ⟨(i, hand[i]), ?_, rfl⟩
    refine List.mem_filter.mpr ⟨?_, ?_⟩
    · exact List.mk_mem_enum_iff_getElem?.mpr (List.getElem?_eq_getElem hi)
    · simp only [hno, Bool.not_false]

theorem wellFormed_cases (t : Tile) (h : wellFormedTile t = true) :
    (isNumberedSuit t.suit = true ∧ ∃ x : Fin 9, t.value = some (TileVal.num x)) ∨
    (t.suit = TileSuit.wind ∧ ∃ w, t.value = some (TileVal.wind w)) ∨
    (t.suit = TileSuit.dragon ∧ ∃ d, t.value = some (TileVal.dragon d)) := by
  obtain ⟨tid, ts, tv⟩ := t
  cases ts <;> rcases tv with - | tv <;> try cases tv
  all_goals simp_all [wellFormedTile, isNumberedSuit]

theorem isNeighbor_iff_spec (t u : Tile) (ht : wellFormedTile t = true)
    (hu : wellFormedTile u = true) :
    isNeighbor t u = true ↔ neighborSpec t u := by
  by_cases hsuit : t.suit = u.suit
  · rcases wellFormed_cases t ht with ⟨hnum, x, hx⟩ | ⟨hw, w, hwv⟩ | ⟨hd, d, hdv⟩
    · rcases wellFormed_cases u hu with ⟨hnum2, y, hy⟩ | ⟨hw2, _, _⟩ | ⟨hd2, _, _⟩
      · unfold isNeighbor neighborSpec
        rw [if_neg (by simp [hsuit]), hx, hy, if_pos hnum]
        simp only [decide_eq_true_eq, tileNumVal, hx, hy]
        constructor
        · intro habs
          refine ⟨hsuit, x.val + 1, y.val + 1, rfl, rfl, ?_⟩
          push_cast at habs ⊢
          omega
        · rintro ⟨-, x', y', hx', hy', habs⟩
          simp only [Option.some.injEq] at hx' hy'
          subst hx'
          subst hy'
          push_cast at habs ⊢
          omega
      · rw [hsuit, hw2] at hnum
        simp [isNumberedSuit] at hnum
      · rw [hsuit, hd2] at hnum
        simp [isNumberedSuit] at hnum
    · rcases wellFormed_cases u hu with ⟨hnum2, _, _⟩ | ⟨hw2, w2, hwv2⟩ | ⟨hd2, _, _⟩
      · rw [← hsuit, hw] at hnum2
        simp [isNumberedSuit] at hnum2
      · unfold isNeighbor neighborSpec
        rw [hw] at hsuit
        rw [if_neg (by simp [hw, ← hsuit]), hwv, hwv2, hw]
        simp [isNumberedSuit, ← hsuit]
      · rw [hw, hd2] at hsuit
        simp at hsuit
    · rcases wellFormed_cases u hu with ⟨hnum2, _, _⟩ | ⟨hw2, _, _⟩ | ⟨hd2, d2, hdv2⟩
      · rw [← hsuit, hd] at hnum2
        simp [isNumberedSuit] at hnum2
      · rw [hd, hw2] at hsuit
        simp at hsuit
      · unfold isNeighbor neighborSpec
        rw [hd] at hsuit
        rw [if_neg (by simp [hd, ← hsuit]), hdv, hdv2, hd]
        simp [isNumberedSuit, ← hsuit]
  · unfold isNeighbor neighborSpec
    rw [if_pos hsuit]
    simp [hsuit]

/-- C4: in any well-formed hand, a tile occurrence is returned by
`findIsolatedTiles` iff no tile at another index has the same suit and
numeric value distance at most 2 (numbered suits) or exactly the same
value (wind/dragon suits); in particular a same-suit numbered hand with
values {1, 5, 9} is entirely isolated and one with values {1, 2, 3} has
no isolated tiles. -/
theorem findIsolatedTiles_iff_spec :
    (∀ (hand : List Tile), (∀ t ∈ hand, wellFormedTile t = true) →
      ∀ (i : Nat) (hi : i < hand.length),
        (hand[i] ∈ findIsolatedTiles hand ↔
          ∀ (j : Nat) (hj : j < hand.length), j ≠ i →
            ¬ neighborSpec hand[i] hand[j])) ∧
    (∀ s : TileSuit, isNumberedSuit s = true → ∀ id1 id2 id3 : String,
      findIsolatedTiles [⟨id1, s, some (.num 0)⟩, ⟨id2, s, some (.num 4)⟩,
          ⟨id3, s, some (.num 8)⟩]
        = [⟨id1, s, some (.num 0)⟩, ⟨id2, s, some (.num 4)⟩,
          ⟨id3, s, some (.num 8)⟩]) ∧
    (∀ s : TileSuit, isNumberedSuit s = true → ∀ id1 id2 id3 : String,
      findIsolatedTiles [⟨id1, s, some (.num 0)⟩, ⟨id2, s, some (.num 1)⟩,
          ⟨id3, s, some (.num 2)⟩] = []) := by
  refine ⟨?_, ?_, ?_⟩
  · intro hand hwf i hi
    constructor
    · intro hmem j hj hji hspec
      rw [mem_findIsolatedTiles hand i hi] at hmem
      have hn : hasNeighbor hand i hand[i] = true :=
        (hasNeighbor_iff hand i hand[i]).mpr
          ⟨j, hj, hji,
            (isNeighbor_iff_spec _ _ (hwf _ (List.getElem_mem hi))
              (hwf _ (List.getElem_mem hj))).mpr hspec⟩
      rw [hn] at hmem
      cases hmem
    · intro hno
      rw [mem_findIsolatedTiles hand i hi, ← Bool.not_eq_true, hasNeighbor_iff]
      rintro ⟨j, hj, hji, hnb⟩
      exact hno j hj hji
        ((isNeighbor_iff_spec _ _ (hwf _ (List.getElem_mem hi))
          (hwf _ (List.getElem_mem hj))).mp hnb)
  · intro s hs id1 id2 id3
    cases s <;> first
      | rfl
      | simp [isNumberedSuit] at hs
  · intro s hs id1 id2 id3
    cases s <;> first
      | rfl
      | simp [isNumberedSuit] at hs

/-- Witness for C4 at concrete hands. -/
theorem findIsolatedTiles_iff_spec_witness :
    (sampleIsoHand[2] ∈ findIsolatedTiles sampleIsoHand ↔
      ∀ (j : Nat) (hj : j < sampleIsoHand.length), j ≠ 2 →
        ¬ neighborSpec sampleIsoHand[2] sampleIsoHand[j]) ∧
    (findIsolatedTiles [⟨"x1", .bamboo, some (.num 0)⟩,
        ⟨"x2", .bamboo, some (.num 4)⟩, ⟨"x3", .bamboo, some (.num 8)⟩]
      = [⟨"x1", .bamboo, some (.num 0)⟩, ⟨"x2", .bamboo, some (.num 4)⟩,
        ⟨"x3", .bamboo, some (.num 8)⟩]) ∧
    (findIsolatedTiles [⟨"x1", .bamboo, some (.num 0)⟩,
        ⟨"x2", .bamboo, some (.num 1)⟩, ⟨"x3", .bamboo, some (.num 2)⟩] = []) :=
  ⟨findIsolatedTiles_iff_spec.1 sampleIsoHand (by decide) 2 (by decide),
   findIsolatedTiles_iff_spec.2.1 TileSuit.bamboo (by decide) "x1" "x2" "x3",
   findIsolatedTiles_iff_spec.2.2 TileSuit.bamboo (by decide) "x1" "x2" "x3"⟩

theorem filter_enumFrom_head :
    ∀ (l : List Tile) (n : Nat) (f : Nat × Tile → Bool) (i : Nat) (hi : i < l.length),
      f (n + i, l[i]) = true →
      (∀ j (hj : j < l.length), j < i → f (n + j, l[j]) = false) →
      ((l.enumFrom n).filter f).head? = some (n + i, l[i]) := by
  intro l
  induction l with
  | nil =>
      intro n f i hi
      simp at hi
  | cons x xs ih =>
      intro n f i hi hfi hbefore
      cases i with
      | zero =>
          simp only [Nat.add_zero, List.getElem_cons_zero] at hfi ⊢
          rw [List.enumFrom_cons, List.filter_cons, if_pos hfi]
          rfl
      | succ k =>
          have h0 : f (n, x) = false := by
            have h := hbefore 0 (by omega) (by omega)
            simpa using h
          rw [List.enumFrom_cons, List.filter_cons, if_neg (by simp [h0])]
          have hk : k < xs.length := by
            simp only [List.length_cons] at hi
            omega
          have hf' : f (n + 1 + k, xs[k]) = true := by
            have e : n + 1 + k = n + (k + 1) := by omega
            rw [e]
            simpa using hfi
          have hb' : ∀ j (hj : j < xs.length), j < k → f (n + 1 + j, xs[j]) = false := by
            intro j hj hjk
            have e : n + 1 + j = n + (j + 1) := by omega
            rw [e]
            have h := hbefore (j + 1) (by simp only [List.length_cons]; omega) (by omega)
            simpa using h
          have hrec := ih (n + 1) f k hk hf' hb'
          rw [hrec]
          have e : n + 1 + k = n + (k + 1) := by omega
          rw [e]
          simp

theorem findIsolatedTiles_head (hand : List Tile) (i : Nat) (hi : i < hand.length)
    (hiso : hasNeighbor hand i hand[i] = false)
    (hfirst : ∀ j (hj : j < hand.length), j < i → hasNeighbor hand j hand[j] = true) :
    (findIsolatedTiles hand).head? = some hand[i] := by
  unfold findIsolatedTiles
  rw [List.head?_map, show hand.enum = hand.enumFrom 0 from rfl]
  rw [filter_enumFrom_head hand 0 (fun p => ! hasNeighbor hand p.1 p.2) i hi
    (by simpa using hiso)
    (by intro j hj hji; simpa using hfirst j hj hji)]
  simp

/-- C5: on any hand with an isolated tile (spec sense, at the first such
index `i` of a well-formed hand), the hard policy returns exactly that
tile, for every value of the random source. -/
theorem selectTileToDiscard_hard_first (hand : List Tile) (r i : Nat)
    (hwf : ∀ t ∈ hand, wellFormedTile t = true)
    (hi : i < hand.length)
    (hiso : ∀ j (hj : j < hand.length), j ≠ i → ¬ neighborSpec hand[i] hand[j])
    (hfirst : ∀ k (hk : k < hand.length), k < i →
      ∃ j, ∃ hj : j < hand.length, j ≠ k ∧ neighborSpec hand[k] hand[j]) :
    selectTileToDiscard r hand "hard" = some hand[i] := by
  have hiso' : hasNeighbor hand i hand[i] = false := by
    rw [← Bool.not_eq_true, hasNeighbor_iff]
    rintro ⟨j, hj, hji, hnb⟩
    exact hiso j hj hji
      ((isNeighbor_iff_spec _ _ (hwf _ (List.getElem_mem hi))
        (hwf _ (List.getElem_mem hj))).mp hnb)
  have hfirst' : ∀ j (hj : j < hand.length), j < i →
      hasNeighbor hand j hand[j] = true := by
    intro k hk hki
    obtain ⟨j, hj, hjk, hspec⟩ := hfirst k hk hki
    exact (hasNeighbor_iff hand k hand[k]).mpr
      ⟨j, hj, hjk,
        (isNeighbor_iff_spec _ _ (hwf _ (List.getElem_mem hk))
          (hwf _ (List.getElem_mem hj))).mpr hspec⟩
  have hhead := findIsolatedTiles_head hand i hi hiso' hfirst'
  have hsd : findStrategicDiscard r hand = some hand[i] := by
    unfold findStrategicDiscard
    cases hft : findIsolatedTiles hand with
    | nil =>
        rw [hft] at hhead
        simp at hhead
    | cons a tl =>
        rw [hft] at hhead
        simp only [List.head?_cons, Option.some.injEq] at hhead
        rw [hhead]
  unfold selectTileToDiscard
  rw [if_neg (by omega : ¬ hand.length = 0),
    if_neg (by decide : ¬ ("hard" : String) = "easy"),
    if_neg (by decide : ¬ ("hard" : String) = "medium"),
    if_pos rfl, hsd]

/-- Witness for C5: on the concrete hand the hard policy discards the
lone dot tile at index 2, for random source 0. -/
theorem selectTileToDiscard_hard_first_witness :
    selectTileToDiscard 0 sampleIsoHand "hard"
      = some { id := "w", suit := .dot, value := some (.num 8) } := by
  have hwfall : ∀ t ∈ sampleIsoHand, wellFormedTile t = true := by decide
  have hi2 : 2 < sampleIsoHand.length := by decide
  have hj0 : 0 < sampleIsoHand.length := by decide
  have hj1 : 1 < sampleIsoHand.length := by decide
  have hn20 : ¬ isNeighbor (sampleIsoHand.get ⟨2, by decide⟩)
      (sampleIsoHand.get ⟨0, by decide⟩) = true := by decide
  have hn21 : ¬ isNeighbor (sampleIsoHand.get ⟨2, by decide⟩)
      (sampleIsoHand.get ⟨1, by decide⟩) = true := by decide
  have hn01 : isNeighbor (sampleIsoHand.get ⟨0, by decide⟩)
      (sampleIsoHand.get ⟨1, by decide⟩) = true := by decide
  have hn10 : isNeighbor (sampleIsoHand.get ⟨1, by decide⟩)
      (sampleIsoHand.get ⟨0, by decide⟩) = true := by decide
  refine selectTileToDiscard_hard_first sampleIsoHand 0 2 hwfall hi2 ?_ ?_
  · intro j hj hne hspec
    have hn := (isNeighbor_iff_spec _ _ (hwfall _ (List.getElem_mem hi2))
      (hwfall _ (List.getElem_mem hj))).mpr hspec
    revert hn
    have hj3 : j < 3 := hj
    interval_cases j
    · exact fun hn => absurd hn hn20
    · exact fun hn => absurd hn hn21
    · exact fun _ => absurd rfl hne
  · intro k hk hk2
    have hk3 : k < 3 := hk
    interval_cases k
    · exact ⟨1, hj1, by decide,
        (isNeighbor_iff_spec _ _ (hwfall _ (List.getElem_mem hk))
          (hwfall _ (List.getElem_mem hj1))).mp hn01⟩
    · exact ⟨0, hj0, by decide,
        (isNeighbor_iff_spec _ _ (hwfall _ (List.getElem_mem hk))
          (hwfall _ (List.getElem_mem hj0))).mp hn10⟩

/-! ### Claim C6: drawing from an empty pile -/

/-- C6: drawing from an empty pile finishes the game, changes nothing
else (players, piles, last-drawn tile and winner all unchanged), and is
idempotent. -/
theorem drawTile_empty (playerIndex : Nat) (st : GameState) (h : st.drawPile = []) :
    drawTile playerIndex st = { st with gameState := GamePhase.finished } ∧
    (drawTile playerIndex st).winner = st.winner ∧
    (drawTile playerIndex st).players = st.players ∧
    (drawTile playerIndex st).drawPile = st.drawPile ∧
    (drawTile playerIndex st).lastDrawnTile = st.lastDrawnTile ∧
    drawTile playerIndex (drawTile playerIndex st) = drawTile playerIndex st := by
  have h1 : drawTile playerIndex st = { st with gameState := GamePhase.finished } := by
    unfold drawTile
    rw [h]
  have h2 : drawTile playerIndex { st with gameState := GamePhase.finished }
      = { st with gameState := GamePhase.finished } := by
    unfold drawTile
    have e : ({ st with gameState := GamePhase.finished } : GameState).drawPile = [] := h
    rw [e]
  refine ⟨h1, by rw [h1], by rw [h1], by rw [h1, h], by rw [h1], by rw [h1, h2]⟩

/-- Witness for C6 at a concrete empty-pile state. -/
theorem drawTile_empty_witness :
    emptyGameState.drawPile = [] ∧
    (drawTile 0 emptyGameState
        = { emptyGameState with gameState := GamePhase.finished } ∧
      (drawTile 0 emptyGameState).winner = emptyGameState.winner ∧
      (drawTile 0 emptyGameState).players = emptyGameState.players ∧
      (drawTile 0 emptyGameState).drawPile = emptyGameState.drawPile ∧
      (drawTile 0 emptyGameState).lastDrawnTile = emptyGameState.lastDrawnTile ∧
      drawTile 0 (drawTile 0 emptyGameState) = drawTile 0 emptyGameState) :=
  ⟨rfl, drawTile_empty 0 emptyGameState rfl⟩

/-! ### Claim C7: discarding an absent identifier -/

theorem findIdxO_eq_none (p : Tile → Bool) :
    ∀ (l : List Tile), (∀ t ∈ l, p t = false) → findIdxO p l = none := by
  intro l
  induction l with
  | nil => intro _; rfl
  | cons t ts ih =>
      intro h
      unfold findIdxO
      rw [h t (List.mem_cons_self t ts), ih (fun u hu => h u (List.mem_cons_of_mem t hu))]
      rfl

/-- C7: a discard whose tile identifier does not occur in the indicated
player's hand is a silent no-op: the state is returned unchanged and no
follow-up draw is scheduled. -/
theorem discardTile_miss (playerIndex : Nat) (tileId : String) (st : GameState)
    (hmiss : ∀ t ∈ handOf st playerIndex, t.id ≠ tileId) :
    discardTile playerIndex tileId st = (st, none) := by
  cases hp : st.players[playerIndex]? with
  | none =>
      unfold discardTile
      rw [hp]
  | some player =>
      have hmiss' : ∀ t ∈ player.hand, (fun t => decide (t.id = tileId)) t = false := by
        intro t ht
        have : t.id ≠ tileId := by
          apply hmiss
          unfold handOf
          rw [hp]
          exact ht
        simpa using this
      unfold discardTile
      rw [hp]
      simp [findIdxO_eq_none _ player.hand hmiss']

/-- Witness for C7: discarding an identifier absent from the hand. -/
theorem discardTile_miss_witness :
    (∀ t ∈ handOf sampleState 0, t.id ≠ "zzz") ∧
    discardTile 0 "zzz" sampleState = (sampleState, none) :=
  ⟨by decide, discardTile_miss 0 "zzz" sampleState (by decide)⟩

/-! ### Claim C8: draw then discard -/

theorem updateAt_length (f : Player → Player) :
    ∀ (ps : List Player) (i : Nat), (updateAt i f ps).length = ps.length := by
  intro ps
  induction ps with
  | nil => intro i; simp [updateAt]
  | cons p ps ih =>
      intro i
      cases i with
      | zero => simp [updateAt]
      | succ n => simpa [updateAt] using ih n

theorem getElem?_updateAt_self (f : Player → Player) :
    ∀ (ps : List Player) (i : Nat), (updateAt i f ps)[i]? = (ps[i]?).map f := by
  intro ps
  induction ps with
  | nil => intro i; simp [updateAt]
  | cons p ps ih =>
      intro i
      cases i with
      | zero => simp [updateAt]
      | succ n => simpa [updateAt] using ih n

theorem findIdxO_mem (p : Tile → Bool) :
    ∀ (l : List Tile), (∃ t ∈ l, p t = true) →
      ∃ k, ∃ hk : k < l.length,
        findIdxO p l = some k ∧ p (l.get ⟨k, hk⟩) = true := by
  intro l
  induction l with
  | nil => rintro ⟨t, ht, -⟩; cases ht
  | cons t ts ih =>
      rintro ⟨u, hu, hpu⟩
      by_cases hpt : p t = true
      · exact ⟨0, by simp, by simp [findIdxO, hpt], hpt⟩
      · have hu' : u ∈ ts := by
          rcases List.mem_cons.mp hu with rfl | h
          · exact absurd hpu hpt
          · exact h
        obtain ⟨k, hk, hfind, hpk⟩ := ih ⟨u, hu', hpu⟩
        refine ⟨k + 1, by simpa using Nat.succ_lt_succ hk, ?_, hpk⟩
        simp [findIdxO, hpt, hfind]

/-- C8: from a non-empty pile, drawing and then discarding a present
tile returns the hand to its pre-draw size, appends exactly the
discarded tile to that player's discard pile, and advances the current
player to (i + 1) mod 4. -/
theorem draw_discard_roundtrip (st : GameState) (i : Nat) (tid : String)
    (h4 : st.players.length = 4) (hi : i < 4)
    (hne : st.drawPile ≠ [])
    (htid : tid ∈ (handOf (drawTile i st) i).map Tile.id) :
    (handOf ((discardTile i tid (drawTile i st)).1) i).length
      = (handOf st i).length ∧
    (∃ t : Tile, t.id = tid ∧
      discOf ((discardTile i tid (drawTile i st)).1) i = discOf st i ++ [t]) ∧
    ((discardTile i tid (drawTile i st)).1).currentPlayerIndex = (i + 1) % 4 := by
  obtain ⟨d, rest, hD⟩ : ∃ d rest, st.drawPile = d :: rest := by
    cases hc : st.drawPile with
    | nil => exact absurd hc hne
    | cons d rest => exact ⟨d, rest, rfl⟩
  have hilen : i < st.players.length := by omega
  have hpi : st.players[i]? = some st.players[i] := List.getElem?_eq_getElem hilen
  -- the state after the draw
  have hp2 : (drawTile i st).players
      = updateAt i (fun p => { p with hand := sortHand (p.hand ++ [d]) }) st.players := by
    unfold drawTile
    rw [hD]
  have hq2 : (drawTile i st).players[i]?
      = some { st.players[i] with hand := sortHand (st.players[i].hand ++ [d]) } := by
    rw [hp2, getElem?_updateAt_self, hpi]
    rfl
  have hhand2 : handOf (drawTile i st) i
      = sortHand (st.players[i].hand ++ [d]) := by
    unfold handOf
    rw [hq2]
    rfl
  have hdisc2 : discOf (drawTile i st) i = discOf st i := by
    unfold discOf
    rw [hq2, hpi]
    rfl
  -- locate the tile to discard
  have hex : ∃ t ∈ handOf (drawTile i st) i, (fun t => decide (t.id = tid)) t = true := by
    obtain ⟨t, ht, hid⟩ := List.mem_map.mp htid
    exact ⟨t, ht, by simpa using hid⟩
  rw [hhand2] at hex
  obtain ⟨k, hk, hfind, hpk⟩ := findIdxO_mem _ (sortHand (st.players[i].hand ++ [d])) hex
  have hget : (sortHand (st.players[i].hand ++ [d]))[k]?
      = some ((sortHand (st.players[i].hand ++ [d])).get ⟨k, hk⟩) :=
    List.getElem?_eq_getElem hk
  -- the state after the discard
  have hplayers3 : ((discardTile i tid (drawTile i st)).1).players
      = updateAt i (fun p => { p with
          hand := p.hand.eraseIdx k,
          discarded := p.discarded ++
            [(sortHand (st.players[i].hand ++ [d])).get ⟨k, hk⟩] })
        (drawTile i st).players := by
    unfold discardTile
    rw [hq2]
    simp only [hfind, hget]
  have hcpi3 : ((discardTile i tid (drawTile i st)).1).currentPlayerIndex
      = (i + 1) % (updateAt i (fun p => { p with
          hand := p.hand.eraseIdx k,
          discarded := p.discarded ++
            [(sortHand (st.players[i].hand ++ [d])).get ⟨k, hk⟩] })
        (drawTile i st).players).length := by
    unfold discardTile
    rw [hq2]
    simp only [hfind, hget]
  have hq3 : ((discardTile i tid (drawTile i st)).1).players[i]?
      = some { { st.players[i] with hand := sortHand (st.players[i].hand ++ [d]) } with
          hand := (sortHand (st.players[i].hand ++ [d])).eraseIdx k,
          discarded := st.players[i].discarded ++
            [(sortHand (st.players[i].hand ++ [d])).get ⟨k, hk⟩] } := by
    rw [hplayers3, getElem?_updateAt_self, hq2]
    rfl
  refine ⟨?_, ?_, ?_⟩
  · -- hand size is back to the pre-draw value
    unfold handOf
    rw [hq3, hpi]
    show ((sortHand (st.players[i].hand ++ [d])).eraseIdx k).length
      = st.players[i].hand.length
    rw [List.length_eraseIdx_of_lt hk]
    simp only [sortHand, List.length_mergeSort, List.length_append]
    simp
  · -- the discard pile grew by exactly the discarded tile
    refine ⟨(sortHand (st.players[i].hand ++ [d])).get ⟨k, hk⟩, ?_, ?_⟩
    · simpa using hpk
    · unfold discOf
      rw [hq3, hpi]
      rfl
  · -- the turn advanced
    rw [hcpi3, updateAt_length, hp2, updateAt_length, h4]

/-- Witness for C8 at a concrete state: player 0 draws "d0" and
discards it. -/
theorem draw_discard_roundtrip_witness :
    (sampleState.players.length = 4 ∧ sampleState.drawPile ≠ [] ∧
      "d0" ∈ (handOf (drawTile 0 sampleState) 0).map Tile.id) ∧
    ((handOf ((discardTile 0 "d0" (drawTile 0 sampleState)).1) 0).length
        = (handOf sampleState 0).length ∧
      (∃ t : Tile, t.id = "d0" ∧
        discOf ((discardTile 0 "d0" (drawTile 0 sampleState)).1) 0
          = discOf sampleState 0 ++ [t]) ∧
      ((discardTile 0 "d0" (drawTile 0 sampleState)).1).currentPlayerIndex
        = (0 + 1) % 4) := by
  have hmem : "d0" ∈ (handOf (drawTile 0 sampleState) 0).map Tile.id := by
    have h2 : handOf (drawTile 0 sampleState) 0
        = sortHand [bTile "a0" 0, bTile "b0" 4, bTile "d0" 2] := rfl
    rw [h2, List.Perm.mem_iff ((sortHand_perm _).map Tile.id)]
    decide
  exact ⟨⟨by decide, by decide, hmem⟩,
    draw_discard_roundtrip sampleState 0 "d0" (by decide) (by decide)
      (by decide) hmem⟩

/-! ### Claim C9: the difficulty parameter -/

/-- Counterexample: an invalid non-empty difficulty string is not
replaced by "medium", and the opponent selection does not follow the
medium policy on it. -/
theorem difficulty_invalid_not_medium :
    difficultyParam (some "banana") ≠ "medium" ∧
    selectTileToDiscard 0 sampleIsoHand (difficultyParam (some "banana"))
      ≠ selectTileToDiscard 0 sampleIsoHand "medium" := by decide

/-- C9 (amended): only an absent or empty difficulty parameter defaults
to "medium"; any other string is kept as-is, and opponent selection for
a string outside the three known tiers takes the default branch and
returns the first tile of the hand, not the medium policy. -/
theorem difficulty_default_behavior :
    difficultyParam none = "medium" ∧
    difficultyParam (some "") = "medium" ∧
    (∀ s : String, s ≠ "" → difficultyParam (some s) = s) ∧
    (∀ (r : Nat) (hand : List Tile) (d : String),
      d ≠ "easy" → d ≠ "medium" → d ≠ "hard" → hand ≠ [] →
      selectTileToDiscard r hand d = hand[0]?) := by
  refine ⟨rfl, rfl, ?_, ?_⟩
  · intro s hs
    simp [difficultyParam, hs]
  · intro r hand d h1 h2 h3 h4
    unfold selectTileToDiscard
    rw [if_neg (by simp [h4]), if_neg h1, if_neg h2, if_neg h3]

/-- Witness for C9 at a concrete invalid difficulty string. -/
theorem difficulty_default_behavior_witness :
    difficultyParam (some "banana") = "banana" ∧
    selectTileToDiscard 0 sampleIsoHand "banana" = sampleIsoHand[0]? :=
  ⟨difficulty_default_behavior.2.2.1 "banana" (by decide),
    difficulty_default_behavior.2.2.2 0 sampleIsoHand "banana" (by decide)
      (by decide) (by decide) (by decide)⟩
